import Mathlib

/-!
Shallow embedding of the scene-graph core of the `opengl-experiments` repository:
`Node` (src/Main/Node.h, src/Main/Node.cpp), `Physic` (src/Main/Physic.h,
src/Main/Physic.cpp), `MatrixStack` (src/Main/MatrixStack.h) and `Scene`
(src/Main/Scene.h), together with the GLM vector / quaternion / matrix
operations those files call (glm 0.9.4 era, `GLM_FORCE_RADIANS`).

Scalar arithmetic uses `ℝ`, idealizing the C++ `float` computations; the
Boolean flags and the data-structure shapes are modelled exactly.  Matrix
entries are written row/column (`m01` is row 0, column 1); GLM stores matrices
column-major, so GLM's `Result[c][r]` is entry `m r c` here.
-/

noncomputable section

/-- glm::vec3 (three float components, default constructed to zero). -/
structure Vec3 where
  x : ℝ
  y : ℝ
  z : ℝ

/-- glm::fquat (w + xi + yj + zk, default constructed to the identity rotation). -/
structure Quat where
  w : ℝ
  x : ℝ
  y : ℝ
  z : ℝ

/-- glm::mat3, entries named row/column. -/
structure Mat3 where
  m00 : ℝ
  m01 : ℝ
  m02 : ℝ
  m10 : ℝ
  m11 : ℝ
  m12 : ℝ
  m20 : ℝ
  m21 : ℝ
  m22 : ℝ

/-- glm::mat4, entries named row/column (default constructed to the identity). -/
structure Mat4 where
  m00 : ℝ
  m01 : ℝ
  m02 : ℝ
  m03 : ℝ
  m10 : ℝ
  m11 : ℝ
  m12 : ℝ
  m13 : ℝ
  m20 : ℝ
  m21 : ℝ
  m22 : ℝ
  m23 : ℝ
  m30 : ℝ
  m31 : ℝ
  m32 : ℝ
  m33 : ℝ

/-- Component-wise vector sum (glm::vec3 operator+). -/
def Vec3.add (a b : Vec3) : Vec3 :=
  ⟨a.x + b.x, a.y + b.y, a.z + b.z⟩

instance : Add Vec3 := ⟨Vec3.add⟩

/-- Scaling of a glm::vec3 by a float (operator* with a scalar). -/
def Vec3.scale (k : ℝ) (v : Vec3) : Vec3 :=
  ⟨k * v.x, k * v.y, k * v.z⟩

/-- glm::cross for vec3. -/
def Vec3.cross (a b : Vec3) : Vec3 :=
  ⟨a.y * b.z - a.z * b.y, a.z * b.x - a.x * b.z, a.x * b.y - a.y * b.x⟩

/-- Default-constructed glm::vec3, i.e. the zero vector. -/
def Vec3.zero : Vec3 := ⟨0, 0, 0⟩

/-- Default-constructed glm::fquat, i.e. the identity quaternion (w = 1). -/
def Quat.one : Quat := ⟨1, 0, 0, 0⟩

/-- Hamilton product (glm::fquat operator*). -/
def Quat.mul (p q : Quat) : Quat :=
  ⟨p.w * q.w - p.x * q.x - p.y * q.y - p.z * q.z,
   p.w * q.x + p.x * q.w + p.y * q.z - p.z * q.y,
   p.w * q.y + p.y * q.w + p.z * q.x - p.x * q.z,
   p.w * q.z + p.z * q.w + p.x * q.y - p.y * q.x⟩

/-- Squared length of a quaternion (glm::dot of a quaternion with itself). -/
def Quat.lengthSq (q : Quat) : ℝ :=
  q.w * q.w + q.x * q.x + q.y * q.y + q.z * q.z

/-- glm::length of a quaternion. -/
def Quat.length (q : Quat) : ℝ :=
  Real.sqrt q.lengthSq

/-- glm::normalize for quaternions (glm 0.9.4): returns the unit w quaternion
when the length is not positive, otherwise scales by one over the length. -/
def Quat.normalize (q : Quat) : Quat :=
  if q.length ≤ 0 then ⟨1, 0, 0, 0⟩
  else
    let oneOverLen := 1 / q.length
    ⟨q.w * oneOverLen, q.x * oneOverLen, q.y * oneOverLen, q.z * oneOverLen⟩

/-- glm::angleAxis (GLM_FORCE_RADIANS): quaternion from an angle in radians and
a (normalized) axis, via the half angle. -/
def Quat.angleAxis (aAngleRad : ℝ) (aAxis : Vec3) : Quat :=
  ⟨Real.cos (aAngleRad * (1 / 2)),
   aAxis.x * Real.sin (aAngleRad * (1 / 2)),
   aAxis.y * Real.sin (aAngleRad * (1 / 2)),
   aAxis.z * Real.sin (aAngleRad * (1 / 2))⟩

/-- glm operator*(fquat, vec3): rotate a vector by a quaternion,
v + 2w (qv × v) + 2 (qv × (qv × v)) with qv the vector part. -/
def Quat.rotateVec (q : Quat) (v : Vec3) : Vec3 :=
  let qv : Vec3 := ⟨q.x, q.y, q.z⟩
  let uv := qv.cross v
  let uuv := qv.cross uv
  v + Vec3.scale (2 * q.w) uv + Vec3.scale 2 uuv

/-- glm::mat3_cast of a quaternion (rotation matrix, row/column entries). -/
def Quat.mat3Cast (q : Quat) : Mat3 :=
  ⟨1 - 2 * (q.y * q.y + q.z * q.z), 2 * (q.x * q.y - q.w * q.z), 2 * (q.x * q.z + q.w * q.y),
   2 * (q.x * q.y + q.w * q.z), 1 - 2 * (q.x * q.x + q.z * q.z), 2 * (q.y * q.z - q.w * q.x),
   2 * (q.x * q.z - q.w * q.y), 2 * (q.y * q.z + q.w * q.x), 1 - 2 * (q.x * q.x + q.y * q.y)⟩

/-- glm::mat4_cast of a quaternion: the mat3_cast rotation with an affine last
row and column. -/
def Quat.mat4Cast (q : Quat) : Mat4 :=
  let r := q.mat3Cast
  ⟨r.m00, r.m01, r.m02, 0,
   r.m10, r.m11, r.m12, 0,
   r.m20, r.m21, r.m22, 0,
   0, 0, 0, 1⟩

/-- glm mat3 * vec3 (matrix applied to a column vector). -/
def Mat3.mulVec (m : Mat3) (v : Vec3) : Vec3 :=
  ⟨m.m00 * v.x + m.m01 * v.y + m.m02 * v.z,
   m.m10 * v.x + m.m11 * v.y + m.m12 * v.z,
   m.m20 * v.x + m.m21 * v.y + m.m22 * v.z⟩

/-- The identity glm::mat4, the value of the default constructor glm::mat4(). -/
def Mat4.identity : Mat4 :=
  ⟨1, 0, 0, 0,
   0, 1, 0, 0,
   0, 0, 1, 0,
   0, 0, 0, 1⟩

/-- glm mat4 * mat4 product. -/
def Mat4.mul (a b : Mat4) : Mat4 :=
  ⟨a.m00 * b.m00 + a.m01 * b.m10 + a.m02 * b.m20 + a.m03 * b.m30,
   a.m00 * b.m01 + a.m01 * b.m11 + a.m02 * b.m21 + a.m03 * b.m31,
   a.m00 * b.m02 + a.m01 * b.m12 + a.m02 * b.m22 + a.m03 * b.m32,
   a.m00 * b.m03 + a.m01 * b.m13 + a.m02 * b.m23 + a.m03 * b.m33,
   a.m10 * b.m00 + a.m11 * b.m10 + a.m12 * b.m20 + a.m13 * b.m30,
   a.m10 * b.m01 + a.m11 * b.m11 + a.m12 * b.m21 + a.m13 * b.m31,
   a.m10 * b.m02 + a.m11 * b.m12 + a.m12 * b.m22 + a.m13 * b.m32,
   a.m10 * b.m03 + a.m11 * b.m13 + a.m12 * b.m23 + a.m13 * b.m33,
   a.m20 * b.m00 + a.m21 * b.m10 + a.m22 * b.m20 + a.m23 * b.m30,
   a.m20 * b.m01 + a.m21 * b.m11 + a.m22 * b.m21 + a.m23 * b.m31,
   a.m20 * b.m02 + a.m21 * b.m12 + a.m22 * b.m22 + a.m23 * b.m32,
   a.m20 * b.m03 + a.m21 * b.m13 + a.m22 * b.m23 + a.m23 * b.m33,
   a.m30 * b.m00 + a.m31 * b.m10 + a.m32 * b.m20 + a.m33 * b.m30,
   a.m30 * b.m01 + a.m31 * b.m11 + a.m32 * b.m21 + a.m33 * b.m31,
   a.m30 * b.m02 + a.m31 * b.m12 + a.m32 * b.m22 + a.m33 * b.m32,
   a.m30 * b.m03 + a.m31 * b.m13 + a.m32 * b.m23 + a.m33 * b.m33⟩

instance : Mul Mat4 := ⟨Mat4.mul⟩

/-- glm::translate(glm::mat4(1.0f), v): the affine translation matrix. -/
def Mat4.translate (v : Vec3) : Mat4 :=
  ⟨1, 0, 0, v.x,
   0, 1, 0, v.y,
   0, 0, 1, v.z,
   0, 0, 0, 1⟩

/-- Physical properties of a Node (src/Main/Physic.h).  The C++ `bool
mbInMotion` is modelled as a stored proposition, the truth value the float
comparisons of the setters computed. -/
structure Physic where
  mbInMotion : Prop
  mLinearSpeed : Vec3
  mRotationalSpeed : Vec3

/-- Physic::Physic (src/Main/Physic.cpp): mbInMotion initialised to false, the
speed vectors default constructed to zero. -/
def Physic.new : Physic :=
  ⟨False, Vec3.zero, Vec3.zero⟩

/-- Physic::setLinearSpeed (src/Main/Physic.h lines 50-53): recomputes
mbInMotion from the components of the argument alone, then stores it. -/
def Physic.setLinearSpeed (p : Physic) (aLinearSpeed : Vec3) : Physic :=
  { p with
    mbInMotion := 0 ≠ aLinearSpeed.x ∨ 0 ≠ aLinearSpeed.y ∨ 0 ≠ aLinearSpeed.z,
    mLinearSpeed := aLinearSpeed }

/-- Physic::setRotationalSpeed (src/Main/Physic.h lines 60-63): recomputes
mbInMotion from the components of the argument alone, then stores it. -/
def Physic.setRotationalSpeed (p : Physic) (aRotationalSpeed : Vec3) : Physic :=
  { p with
    mbInMotion := 0 ≠ aRotationalSpeed.x ∨ 0 ≠ aRotationalSpeed.y ∨ 0 ≠ aRotationalSpeed.z,
    mRotationalSpeed := aRotationalSpeed }

/-- Physic::isInMotion (src/Main/Physic.h lines 88-90): returns the stored flag. -/
def Physic.isInMotion (p : Physic) : Prop :=
  p.mbInMotion

/-- A call to one of the two Physic speed setters, with its argument. -/
inductive PhysicOp where
  | setLinearSpeed (v : Vec3)
  | setRotationalSpeed (v : Vec3)

/-- Apply one setter call to a Physic state. -/
def Physic.applyOp (p : Physic) : PhysicOp → Physic
  | .setLinearSpeed v => p.setLinearSpeed v
  | .setRotationalSpeed v => p.setRotationalSpeed v

/-- Apply a sequence of setter calls, oldest first. -/
def Physic.applyOps (p : Physic) (ops : List PhysicOp) : Physic :=
  ops.foldl Physic.applyOp p

/-- Wrapper of a std::stack of glm::mat4 matrices (src/Main/MatrixStack.h):
the saved stack (top at the head) and the current matrix. -/
structure MatrixStack where
  mStack : List Mat4
  mCurrentMatrix : Mat4

/-- MatrixStack::multiply (src/Main/MatrixStack.h line 112): right-multiplies
the current matrix with the one provided. -/
def MatrixStack.multiply (s : MatrixStack) (aMatrix : Mat4) : MatrixStack :=
  { s with mCurrentMatrix := s.mCurrentMatrix * aMatrix }

/-- MatrixStack::top (src/Main/MatrixStack.h line 119): the current matrix. -/
def MatrixStack.top (s : MatrixStack) : Mat4 :=
  s.mCurrentMatrix

/-- MatrixStack::push (src/Main/MatrixStack.h line 133): saves the current
matrix onto the stack (reached only through the Push guard). -/
def MatrixStack.push (s : MatrixStack) : MatrixStack :=
  { s with mStack := s.mCurrentMatrix :: s.mStack }

/-- MatrixStack::pop (src/Main/MatrixStack.h line 140): restores the top of
the saved stack into the current matrix and removes it.  Reading the top of an
empty std::stack is undefined behaviour, modelled as the `none` branch. -/
def MatrixStack.pop (s : MatrixStack) : Option MatrixStack :=
  match s.mStack with
  | [] => none
  | m :: rest => some ⟨rest, m⟩

/-- A mesh attached to a Node (src/Main/Mesh.h); the scene-graph core only
holds it by reference and calls its draw() contract, so the name identifies it. -/
structure Mesh where
  mName : String

set_option maxHeartbeats 1000000

/-- Node of a scene graph (src/Main/Node.h lines 84-98): name, children,
meshes, physic, orientation quaternion, translation vector, cached composed
matrix and its dirty flag. -/
inductive Node where
  | mk (mName : String) (mChildrenList : List Node) (mMeshesList : List Mesh)
       (mPhysic : Physic) (mOrientationQuaternion : Quat)
       (mTranslationVector : Vec3) (mMatrix : Mat4) (mbMatrixDirty : Bool)

/-- Unit vector to the right of the world (src/Main/Node.cpp line 19). -/
def Node.UNIT_X_RIGHT : Vec3 := ⟨1, 0, 0⟩

/-- Unit vector to the up of the world (src/Main/Node.cpp line 20). -/
def Node.UNIT_Y_UP : Vec3 := ⟨0, 1, 0⟩

/-- Unit vector to the front of the world (src/Main/Node.cpp line 21). -/
def Node.UNIT_Z_FRONT : Vec3 := ⟨0, 0, 1⟩

/-- Name of the Node. -/
def Node.mName : Node → String
  | .mk nm _ _ _ _ _ _ _ => nm

/-- Children Nodes of the current Node. -/
def Node.mChildrenList : Node → List Node
  | .mk _ ch _ _ _ _ _ _ => ch

/-- List of meshes of the current Node. -/
def Node.mMeshesList : Node → List Mesh
  | .mk _ _ ms _ _ _ _ _ => ms

/-- Physical properties of the current Node. -/
def Node.mPhysic : Node → Physic
  | .mk _ _ _ ph _ _ _ _ => ph

/-- Quaternion of orientation of the Node. -/
def Node.mOrientationQuaternion : Node → Quat
  | .mk _ _ _ _ q _ _ _ => q

/-- Vector of translation of the Node. -/
def Node.mTranslationVector : Node → Vec3
  | .mk _ _ _ _ _ t _ _ => t

/-- Composed resulting (mutable, cached) matrix of orientation and translation. -/
def Node.mMatrix : Node → Mat4
  | .mk _ _ _ _ _ _ m _ => m

/-- Dirty flag of the cached matrix. -/
def Node.mbMatrixDirty : Node → Bool
  | .mk _ _ _ _ _ _ _ d => d

/-- Node::Node (src/Main/Node.cpp lines 29-32): stores the name and sets
mbMatrixDirty to false; every other member is default constructed (empty
lists, Physic(), identity quaternion, zero vector, identity matrix). -/
def Node.new (apName : String) : Node :=
  .mk apName [] [] Physic.new Quat.one Vec3.zero Mat4.identity false

/-- Node::rotateLeftMultiply (src/Main/Node.cpp lines 165-170): left-multiply
the orientation with an offset quaternion built from angle and axis, then
normalize. -/
def Node.rotateLeftMultiply (aOrientation : Quat) (aAngleRad : ℝ) (aAxis : Vec3) : Quat :=
  Quat.normalize (Quat.mul (Quat.angleAxis aAngleRad aAxis) aOrientation)

/-- Node::rotateRightMultiply (src/Main/Node.cpp lines 151-156): right-multiply
the orientation with an offset quaternion built from angle and axis, then
normalize. -/
def Node.rotateRightMultiply (aOrientation : Quat) (aAngleRad : ℝ) (aAxis : Vec3) : Quat :=
  Quat.normalize (Quat.mul aOrientation (Quat.angleAxis aAngleRad aAxis))

/-- Node::move(const glm::vec3&) (src/Main/Node.cpp lines 46-55): rotates the
given translation into the current model orientation, adds it to the current
position, and marks the matrix dirty. -/
def Node.move : Node → Vec3 → Node
  | .mk nm ch ms ph q t m _, aTranslation =>
    let rotations := q.mat3Cast
    let relativeTranslation := rotations.mulVec aTranslation
    .mk nm ch ms ph q (t + relativeTranslation) m true

/-- Node::pitch (src/Main/Node.cpp lines 60-67): rotate around the current
relative X axis and mark the matrix dirty. -/
def Node.pitch : Node → ℝ → Node
  | .mk nm ch ms ph q t m _, aAngle =>
    let modelX := q.rotateVec Node.UNIT_X_RIGHT
    .mk nm ch ms ph (Node.rotateLeftMultiply q aAngle modelX) t m true

/-- Node::yaw (src/Main/Node.cpp lines 72-79): rotate around the current
relative Y axis and mark the matrix dirty. -/
def Node.yaw : Node → ℝ → Node
  | .mk nm ch ms ph q t m _, aAngle =>
    let modelY := q.rotateVec Node.UNIT_Y_UP
    .mk nm ch ms ph (Node.rotateLeftMultiply q aAngle modelY) t m true

/-- Node::roll (src/Main/Node.cpp lines 84-91): rotate around the current
relative Z axis and mark the matrix dirty. -/
def Node.roll : Node → ℝ → Node
  | .mk nm ch ms ph q t m _, aAngle =>
    let modelZ := q.rotateVec Node.UNIT_Z_FRONT
    .mk nm ch ms ph (Node.rotateLeftMultiply q aAngle modelZ) t m true

/-- Node::setOrientationQuaternion (src/Main/Node.h lines 131-138): set the
four components and mark the matrix dirty. -/
def Node.setOrientationQuaternion : Node → ℝ → ℝ → ℝ → ℝ → Node
  | .mk nm ch ms ph _ t m _, w, x, y, z =>
    .mk nm ch ms ph ⟨w, x, y, z⟩ t m true

/-- Node::setTranslationVector (src/Main/Node.h lines 147-153): set the three
components and mark the matrix dirty. -/
def Node.setTranslationVector : Node → ℝ → ℝ → ℝ → Node
  | .mk nm ch ms ph q _ m _, x, y, z =>
    .mk nm ch ms ph q ⟨x, y, z⟩ m true

/-- Node::setLinearSpeed (src/Main/Node.h lines 110-112): forwards to the
owned Physic; the dirty flag is not touched. -/
def Node.setLinearSpeed : Node → Vec3 → Node
  | .mk nm ch ms ph q t m d, aLinearSpeed =>
    .mk nm ch ms (ph.setLinearSpeed aLinearSpeed) q t m d

/-- Node::setRotationalSpeed (src/Main/Node.h lines 119-121): forwards to the
owned Physic; the dirty flag is not touched. -/
def Node.setRotationalSpeed : Node → Vec3 → Node
  | .mk nm ch ms ph q t m d, aRotationalSpeed =>
    .mk nm ch ms (ph.setRotationalSpeed aRotationalSpeed) q t m d

/-- Node::addChildNode (src/Main/Node.h lines 178-180). -/
def Node.addChildNode : Node → Node → Node
  | .mk nm ch ms ph q t m d, aChildNode =>
    .mk nm (ch ++ [aChildNode]) ms ph q t m d

/-- Node::addMesh (src/Main/Node.h lines 187-189). -/
def Node.addMesh : Node → Mesh → Node
  | .mk nm ch ms ph q t m d, aMesh =>
    .mk nm ch (ms ++ [aMesh]) ph q t m d

/-- Node::getMatrix (src/Main/Node.cpp lines 104-115): when the dirty flag is
set, recompute the cached matrix as translation * rotation; return the cached
matrix.  Faithful to the source, the dirty flag is NOT cleared here.  The
returned pair is the returned reference together with the node after the
mutation of the mutable cache. -/
def Node.getMatrix : Node → Mat4 × Node
  | .mk nm ch ms ph q t m d =>
    if d then
      let translation := Mat4.translate t
      let rotation := q.mat4Cast
      let m2 := translation * rotation
      (m2, .mk nm ch ms ph q t m2 d)
    else
      (m, .mk nm ch ms ph q t m d)

/-- One step of the pose-mutation / read language of claim C1: the six pose
mutators of Node interleaved with getMatrix() reads (a read mutates only the
mutable cache). -/
inductive PoseOp where
  | move (v : Vec3)
  | pitch (a : ℝ)
  | yaw (a : ℝ)
  | roll (a : ℝ)
  | setOrientationQuaternion (w x y z : ℝ)
  | setTranslationVector (x y z : ℝ)
  | readMatrix

/-- Apply one pose operation (or read) to a Node. -/
def Node.applyOp (n : Node) : PoseOp → Node
  | .move v => n.move v
  | .pitch a => n.pitch a
  | .yaw a => n.yaw a
  | .roll a => n.roll a
  | .setOrientationQuaternion w x y z => n.setOrientationQuaternion w x y z
  | .setTranslationVector x y z => n.setTranslationVector x y z
  | .readMatrix => n.getMatrix.2

/-- Apply a sequence of pose operations and reads, oldest first. -/
def Node.applyOps (n : Node) (ops : List PoseOp) : Node :=
  ops.foldl Node.applyOp n

/-- An observable effect of the draw traversal, in program order: an upload of
the composite matrix through the shader uniform handle (glUniformMatrix4fv in
Node::draw), or the draw() contract of an attached mesh. -/
inductive Event where
  | uploadMatrix (m : Mat4)
  | drawMesh (mesh : Mesh)

mutual

/-- Node::draw (src/Main/Node.cpp lines 123-142): a RAII push of the stack,
apply getMatrix() to the stack, upload the resulting top() composite, draw the
meshes in list order, recurse into the children in list order, then the guard
destructor pops the stack.  Returns the node after the mutable-cache writes,
the final stack, and the event trace; `none` when a pop hits an empty saved
stack (the undefined-behaviour branch). -/
def Node.draw : Node → MatrixStack → Option (Node × MatrixStack × List Event)
  | .mk nm ch ms ph q t m d, s0 =>
    let s1 := s0.push
    let gm := Node.getMatrix (.mk nm ch ms ph q t m d)
    let s2 := s1.multiply gm.1
    let evHead := Event.uploadMatrix s2.top
    let evMeshes := ms.map Event.drawMesh
    match Node.drawList ch s2 with
    | none => none
    | some (ch2, s3, evChildren) =>
      match s3.pop with
      | none => none
      | some s4 => some (.mk nm ch2 ms ph q t gm.1 d, s4, evHead :: evMeshes ++ evChildren)

/-- The children loop of Node::draw: draw each node of the list in order,
threading the stack. -/
def Node.drawList : List Node → MatrixStack → Option (List Node × MatrixStack × List Event)
  | [], s => some ([], s, [])
  | c :: cs, s =>
    match Node.draw c s with
    | none => none
    | some (c2, s2, ev1) =>
      match Node.drawList cs s2 with
      | none => none
      | some (cs2, s3, ev2) => some (c2 :: cs2, s3, ev1 ++ ev2)

end

/-- Container for root Nodes of a Scene graph (src/Main/Scene.h line 47). -/
structure Scene where
  mRootNodes : List Node

/-- Scene::draw (src/Main/Scene.h lines 72-79): no push and no transform of
its own, just asks the root nodes to draw themselves in order with the same
stack. -/
def Scene.draw (sc : Scene) (s : MatrixStack) : Option (List Node × MatrixStack × List Event) :=
  Node.drawList sc.mRootNodes s

mutual

/-- The trace of effects the specification prescribes for Node::draw, seeded
with the inherited composite transform: first the upload of seed * ownMatrix
(ownMatrix being the getMatrix() value), then the node's own meshes in list
order, then the children in list order, each seeded with seed * ownMatrix. -/
def Node.specTrace (n : Node) (seed : Mat4) : List Event :=
  match n with
  | .mk nm ch ms ph q t m d =>
    let own := seed * (Node.getMatrix (.mk nm ch ms ph q t m d)).1
    Event.uploadMatrix own :: ms.map Event.drawMesh ++ Node.specTraceList ch own

def Node.specTraceList (l : List Node) (seed : Mat4) : List Event :=
  match l with
  | [] => []
  | c :: cs => Node.specTrace c seed ++ Node.specTraceList cs seed

end

mutual

/-- Relation between a node before and after a draw traversal allowed by claim
C10: name, meshes, physic, orientation, translation and the dirty flag agree,
the cached matrix may differ, and the children are pairwise so related. -/
inductive Node.CacheWriteOnly : Node → Node → Prop where
  | mk (nm : String) (ch ch2 : List Node) (ms : List Mesh) (ph : Physic)
       (q : Quat) (t : Vec3) (m m2 : Mat4) (d : Bool)
       (hch : Node.CacheWriteOnlyList ch ch2) :
      Node.CacheWriteOnly (.mk nm ch ms ph q t m d) (.mk nm ch2 ms ph q t m2 d)

inductive Node.CacheWriteOnlyList : List Node → List Node → Prop where
  | nil : Node.CacheWriteOnlyList [] []
  | cons (a b : Node) (l l2 : List Node) (h : Node.CacheWriteOnly a b)
         (hl : Node.CacheWriteOnlyList l l2) :
      Node.CacheWriteOnlyList (a :: l) (b :: l2)

end

/-- The programs that the code can run against a MatrixStack: its push and pop
members are private, so outside code touches the stack depth only through the
scoped Push guard (src/Main/MatrixStack.h lines 41-65); between a guard's
constructor and destructor it can multiply the current matrix and run further
scoped blocks. -/
inductive StackProg where
  | skip
  | multiplyOp (m : Mat4)
  | seq (p1 p2 : StackProg)
  | scopedBlock (p : StackProg)

/-- Run a stack program: `scoped p` is the Push guard around `p` — push on
construction, pop on destruction; `none` signals the undefined-behaviour pop
of an empty saved stack. -/
def StackProg.run : StackProg → MatrixStack → Option MatrixStack
  | .skip, s => some s
  | .multiplyOp m, s => some (s.multiply m)
  | .seq p1 p2, s =>
    match StackProg.run p1 s with
    | none => none
    | some s2 => StackProg.run p2 s2
  | .scopedBlock p, s =>
    match StackProg.run p s.push with
    | none => none
    | some s2 => s2.pop

open Classical

/-- The orientation advance of the time-stepped move: compose the pitch, yaw
and roll offsets of the rotational speed components scaled by the elapsed
time, each exactly as Node::pitch / Node::yaw / Node::roll do (current local
axis, then rotateLeftMultiply). -/
def Node.integrateOrientation (q : Quat) (rotSpeed : Vec3) (aDeltaTime : ℝ) : Quat :=
  let q1 := Node.rotateLeftMultiply q (rotSpeed.x * aDeltaTime)
              (q.rotateVec Node.UNIT_X_RIGHT)
  let q2 := Node.rotateLeftMultiply q1 (rotSpeed.y * aDeltaTime)
              (q1.rotateVec Node.UNIT_Y_UP)
  Node.rotateLeftMultiply q2 (rotSpeed.z * aDeltaTime)
    (q2.rotateVec Node.UNIT_Z_FRONT)

mutual

/-- Modelled from the spec: `Node::move(float aDeltaTime)` is declared at
src/Main/Node.h line 69 and called by Scene::move (src/Main/Scene.h lines
59-64), but no definition of it exists in the sources.  Spec section 4.3: if
the node's Motion.isInMotion(), advance `translation` by `linearSpeed * dt`
(not axis-rotated) and advance `orientation` by composing pitch/yaw/roll
offsets of `angularSpeed.{x,y,z} * dt`; each integration step marks the matrix
dirty (section 8); and recurse into all children in every case. -/
def Node.moveDt (n : Node) (aDeltaTime : ℝ) : Node :=
  match n with
  | .mk nm ch ms ph q t m d =>
    let ch2 := Node.moveDtList ch aDeltaTime
    if ph.isInMotion then
      let t2 := t + Vec3.scale aDeltaTime ph.mLinearSpeed
      let q2 := Node.integrateOrientation q ph.mRotationalSpeed aDeltaTime
      .mk nm ch2 ms ph q2 t2 m true
    else
      .mk nm ch2 ms ph q t m d

/-- The recursion of the time-stepped move into a list of children. -/
def Node.moveDtList (l : List Node) (aDeltaTime : ℝ) : List Node :=
  match l with
  | [] => []
  | c :: cs => Node.moveDt c aDeltaTime :: Node.moveDtList cs aDeltaTime

end

/-- Scene::move (src/Main/Scene.h lines 59-64): asks the root nodes to move
themselves. -/
def Scene.move (sc : Scene) (aDeltaTime : ℝ) : Scene :=
  ⟨Node.moveDtList sc.mRootNodes aDeltaTime⟩

/-- The cached matrix agrees with the pose whenever the dirty flag is clear. -/
def Node.CacheConsistent (n : Node) : Prop :=
  n.mbMatrixDirty = false →
    n.mMatrix = Mat4.translate n.mTranslationVector * Quat.mat4Cast n.mOrientationQuaternion

@[simp]
theorem Node.mName_mk (nm ch ms ph q t m d) :
    (Node.mk nm ch ms ph q t m d).mName = nm := rfl

@[simp]
theorem Node.mChildrenList_mk (nm ch ms ph q t m d) :
    (Node.mk nm ch ms ph q t m d).mChildrenList = ch := rfl

@[simp]
theorem Node.mMeshesList_mk (nm ch ms ph q t m d) :
    (Node.mk nm ch ms ph q t m d).mMeshesList = ms := rfl

@[simp]
theorem Node.mPhysic_mk (nm ch ms ph q t m d) :
    (Node.mk nm ch ms ph q t m d).mPhysic = ph := rfl

@[simp]
theorem Node.mOrientationQuaternion_mk (nm ch ms ph q t m d) :
    (Node.mk nm ch ms ph q t m d).mOrientationQuaternion = q := rfl

@[simp]
theorem Node.mTranslationVector_mk (nm ch ms ph q t m d) :
    (Node.mk nm ch ms ph q t m d).mTranslationVector = t := rfl

@[simp]
theorem Node.mMatrix_mk (nm ch ms ph q t m d) :
    (Node.mk nm ch ms ph q t m d).mMatrix = m := rfl

@[simp]
theorem Node.mbMatrixDirty_mk (nm ch ms ph q t m d) :
    (Node.mk nm ch ms ph q t m d).mbMatrixDirty = d := rfl

/-- The identity matrix is the composition of a zero translation with the
rotation of the identity quaternion. -/
theorem Mat4.translate_zero_mul_cast_one :
    Mat4.translate Vec3.zero * Quat.mat4Cast Quat.one = Mat4.identity := by
  show Mat4.mul _ _ = _
  simp only [Mat4.translate, Quat.mat4Cast, Quat.mat3Cast, Vec3.zero, Quat.one,
    Mat4.mul, Mat4.identity, Mat4.mk.injEq]
  norm_num

/-- C9: a freshly constructed Node has its dirty flag false although the
cached matrix was never computed from the pose; the first getMatrix() call
before any pose mutation takes the no-recomputation branch (it returns the
cached member and leaves the node unchanged) and returns the
default-initialized matrix, the identity, which coincides with
translate(zero) * rotate(identity quaternion). -/
theorem fresh_node_first_read_skips_recompute : ∀ apName : String,
    (Node.new apName).mbMatrixDirty = false
    ∧ (Node.new apName).getMatrix = ((Node.new apName).mMatrix, Node.new apName)
    ∧ (Node.new apName).mMatrix = Mat4.identity
    ∧ Mat4.identity = Mat4.translate Vec3.zero * Quat.mat4Cast Quat.one := by
  intro apName
  refine ⟨rfl, rfl, rfl, ?_⟩
  exact Mat4.translate_zero_mul_cast_one.symm

/-- C2 (code bug): getMatrix() never clears mbMatrixDirty, so after one pose
mutation followed by a getMatrix() read the flag is still true and the next
consecutive read recomputes again, contradicting the memoized-read contract
stated in Node.cpp's own doc comment (lines 96-97). -/
theorem getMatrix_does_not_clear_dirty :
    ((Node.move (Node.new (default : String)) ⟨1, 0, 0⟩).getMatrix.2).mbMatrixDirty = true
    ∧ (Node.move (Node.new (default : String)) ⟨1, 0, 0⟩).mbMatrixDirty = true := by
  exact ⟨rfl, rfl⟩

/-- C3 (code bug): after setRotationalSpeed((1,0,0)) then setLinearSpeed((0,0,0)),
a sequence of speed-setter calls from the default-constructed state, the stored
rotational speed has a nonzero component yet isInMotion() is false, because each
setter recomputes mbInMotion from its own argument alone (src/Main/Physic.h
lines 51 and 61), contradicting the claimed disjunction over both vectors. -/
theorem isInMotion_ignores_other_speed :
    (Physic.applyOps Physic.new
        [PhysicOp.setRotationalSpeed ⟨1, 0, 0⟩, PhysicOp.setLinearSpeed Vec3.zero]).mRotationalSpeed
      = ⟨1, 0, 0⟩
    ∧ ((Physic.applyOps Physic.new
        [PhysicOp.setRotationalSpeed ⟨1, 0, 0⟩, PhysicOp.setLinearSpeed Vec3.zero]).isInMotion
      ↔ False) := by
  constructor
  · rfl
  · rw [iff_false]
    norm_num [Physic.applyOps, Physic.applyOp, Physic.new, Physic.setLinearSpeed,
      Physic.setRotationalSpeed, Physic.isInMotion, Vec3.zero, List.foldl]

/-- A freshly constructed node has a consistent cache: the default identity
matrix encodes the default pose. -/
theorem Node.cacheConsistent_new (apName : String) : (Node.new apName).CacheConsistent := by
  intro _
  show Mat4.identity = _
  exact Mat4.translate_zero_mul_cast_one.symm

/-- Every pose operation or read preserves cache consistency: each mutator
sets the dirty flag, and a read either recomputes the cache from the pose or
leaves everything unchanged. -/
theorem Node.cacheConsistent_applyOp (n : Node) (op : PoseOp)
    (h : n.CacheConsistent) : (n.applyOp op).CacheConsistent := by
  obtain ⟨nm, ch, ms, ph, q, t, m, d⟩ := n
  cases op with
  | move v => intro hd; cases hd
  | pitch a => intro hd; cases hd
  | yaw a => intro hd; cases hd
  | roll a => intro hd; cases hd
  | setOrientationQuaternion w x y z => intro hd; cases hd
  | setTranslationVector x y z => intro hd; cases hd
  | readMatrix =>
    cases d with
    | false => exact h
    | true => intro hd; cases hd

/-- Cache consistency is preserved along any sequence of operations. -/
theorem Node.cacheConsistent_applyOps (n : Node) (ops : List PoseOp)
    (h : n.CacheConsistent) : (n.applyOps ops).CacheConsistent := by
  induction ops generalizing n with
  | nil => exact h
  | cons op ops ih => exact ih _ (Node.cacheConsistent_applyOp n op h)

/-- On a cache-consistent node, getMatrix() returns exactly
translate(translation) * rotate(orientation). -/
theorem Node.getMatrix_fst_of_cacheConsistent (n : Node) (h : n.CacheConsistent) :
    n.getMatrix.1 = Mat4.translate n.mTranslationVector * Quat.mat4Cast n.mOrientationQuaternion := by
  obtain ⟨nm, ch, ms, ph, q, t, m, d⟩ := n
  cases d with
  | false => exact h rfl
  | true => rfl

/-- C1: starting from a constructed Node, after any sequence of pose
mutations (move, pitch, yaw, roll, setOrientationQuaternion,
setTranslationVector) interleaved with getMatrix() reads, the next
getMatrix() read returns translate(T) * rotate(Q) for the current
translation T and orientation Q; and every one of the six mutators sets the
dirty flag. -/
theorem node_matrix_cache_never_stale :
    (∀ (apName : String) (ops : List PoseOp),
      (Node.applyOps (Node.new apName) ops).getMatrix.1
        = Mat4.translate (Node.applyOps (Node.new apName) ops).mTranslationVector
          * Quat.mat4Cast (Node.applyOps (Node.new apName) ops).mOrientationQuaternion)
    ∧ (∀ (n : Node) (v : Vec3), (n.move v).mbMatrixDirty = true)
    ∧ (∀ (n : Node) (a : ℝ), (n.pitch a).mbMatrixDirty = true)
    ∧ (∀ (n : Node) (a : ℝ), (n.yaw a).mbMatrixDirty = true)
    ∧ (∀ (n : Node) (a : ℝ), (n.roll a).mbMatrixDirty = true)
    ∧ (∀ (n : Node) (w x y z : ℝ), (n.setOrientationQuaternion w x y z).mbMatrixDirty = true)
    ∧ (∀ (n : Node) (x y z : ℝ), (n.setTranslationVector x y z).mbMatrixDirty = true) := by
  refine ⟨?_, ?_, ?_, ?_, ?_, ?_, ?_⟩
  · intro apName ops
    exact Node.getMatrix_fst_of_cacheConsistent _
      (Node.cacheConsistent_applyOps _ ops (Node.cacheConsistent_new apName))
  · intro n v; obtain ⟨nm, ch, ms, ph, q, t, m, d⟩ := n; rfl
  · intro n a; obtain ⟨nm, ch, ms, ph, q, t, m, d⟩ := n; rfl
  · intro n a; obtain ⟨nm, ch, ms, ph, q, t, m, d⟩ := n; rfl
  · intro n a; obtain ⟨nm, ch, ms, ph, q, t, m, d⟩ := n; rfl
  · intro n w x y z; obtain ⟨nm, ch, ms, ph, q, t, m, d⟩ := n; rfl
  · intro n x y z; obtain ⟨nm, ch, ms, ph, q, t, m, d⟩ := n; rfl

mutual

/-- Node::draw succeeds (no stack underflow), fully restores the matrix stack
(saved entries and current matrix), produces exactly the specified event
trace seeded with the incoming composite, and rewrites only mutable caches in
the tree. -/
theorem Node.draw_eq (n : Node) (s : MatrixStack) :
    ∃ n2, Node.draw n s = some (n2, s, Node.specTrace n s.mCurrentMatrix)
      ∧ Node.CacheWriteOnly n n2 := by
  obtain ⟨nm, ch, ms, ph, q, t, m, d⟩ := n
  obtain ⟨l2, hdl, hrel⟩ :=
    Node.drawList_eq ch
      ((MatrixStack.push s).multiply (Node.getMatrix (.mk nm ch ms ph q t m d)).1)
  refine ⟨.mk nm l2 ms ph q t (Node.getMatrix (.mk nm ch ms ph q t m d)).1 d, ?_, ?_⟩
  · simp only [Node.draw]
    rw [hdl]
    simp [MatrixStack.push, MatrixStack.multiply, MatrixStack.pop, MatrixStack.top,
      Node.specTrace, Node.specTraceList]
  · exact Node.CacheWriteOnly.mk nm ch l2 ms ph q t m _ d hrel

/-- The sibling loop of Node::draw: same conclusion for a list of nodes drawn
in order from a common stack. -/
theorem Node.drawList_eq (l : List Node) (s : MatrixStack) :
    ∃ l2, Node.drawList l s = some (l2, s, Node.specTraceList l s.mCurrentMatrix)
      ∧ Node.CacheWriteOnlyList l l2 := by
  cases l with
  | nil => exact ⟨[], by simp [Node.drawList, Node.specTraceList], Node.CacheWriteOnlyList.nil⟩
  | cons c cs =>
    obtain ⟨c2, hc, hcr⟩ := Node.draw_eq c s
    obtain ⟨cs2, hcs, hcsr⟩ := Node.drawList_eq cs s
    refine ⟨c2 :: cs2, ?_, Node.CacheWriteOnlyList.cons c c2 cs cs2 hcr hcsr⟩
    simp [Node.drawList, hc, hcs, Node.specTraceList]

end

/-- Every run of a stack program leaves the saved stack exactly as it was. -/
theorem StackProg.run_mStack (p : StackProg) (s : MatrixStack) :
    ∃ cur, p.run s = some (MatrixStack.mk s.mStack cur) := by
  induction p generalizing s with
  | skip => exact ⟨s.mCurrentMatrix, rfl⟩
  | multiplyOp m => exact ⟨s.mCurrentMatrix * m, rfl⟩
  | seq p1 p2 ih1 ih2 =>
    obtain ⟨c1, h1⟩ := ih1 s
    obtain ⟨c2, h2⟩ := ih2 (MatrixStack.mk s.mStack c1)
    exact ⟨c2, by simp [StackProg.run, h1, h2]⟩
  | scopedBlock p ih =>
    obtain ⟨c1, h1⟩ := ih s.push
    refine ⟨s.mCurrentMatrix, ?_⟩
    simp only [MatrixStack.push] at h1
    simp only [StackProg.run, MatrixStack.push, h1]
    rfl

/-- A scoped block (the Push guard) restores the whole stack state. -/
theorem StackProg.run_scoped_restores (p : StackProg) (s : MatrixStack) :
    StackProg.run (.scopedBlock p) s = some s := by
  obtain ⟨c1, h1⟩ := StackProg.run_mStack p s.push
  simp only [MatrixStack.push] at h1
  simp only [StackProg.run, MatrixStack.push, h1]
  rfl

/-- C8: when push and pop happen only through the scoped Push guard (the only
access the code has, push and pop being private), every run succeeds — the
saved stack is non-empty at every pop, the undefined-behaviour branch of pop
is unreachable — with the saved stack preserved, a guard restores exactly the
state its push saved, and in particular Node::draw never underflows. -/
theorem scoped_push_pop_never_underflows :
    (∀ (p : StackProg) (s : MatrixStack), ∃ cur, p.run s = some (MatrixStack.mk s.mStack cur))
    ∧ (∀ (p : StackProg) (s : MatrixStack), StackProg.run (.scopedBlock p) s = some s)
    ∧ (∀ (n : Node) (s : MatrixStack), ∃ n2 ev, Node.draw n s = some (n2, s, ev)) := by
  refine ⟨StackProg.run_mStack, StackProg.run_scoped_restores, ?_⟩
  intro n s
  obtain ⟨n2, h, _⟩ := Node.draw_eq n s
  exact ⟨n2, _, h⟩

/-- C4: drawing a node (and hence a whole Scene) returns the MatrixStack as it
was — same current matrix (top()) and same saved entries — and in the sibling
loop each later sibling is drawn from the very stack the earlier sibling was
drawn from, so no subtree changes the composite transform a later sibling
sees. -/
theorem draw_restores_stack_and_isolates_siblings :
    (∀ (n : Node) (s : MatrixStack), ∃ n2 ev, Node.draw n s = some (n2, s, ev))
    ∧ (∀ (sc : Scene) (s : MatrixStack), ∃ ns ev, Scene.draw sc s = some (ns, s, ev))
    ∧ (∀ (c : Node) (cs : List Node) (s : MatrixStack),
        ∃ c2 cs2 ev1 ev2,
          Node.draw c s = some (c2, s, ev1)
          ∧ Node.drawList cs s = some (cs2, s, ev2)
          ∧ Node.drawList (c :: cs) s = some (c2 :: cs2, s, ev1 ++ ev2)) := by
  refine ⟨?_, ?_, ?_⟩
  · intro n s
    obtain ⟨n2, h, _⟩ := Node.draw_eq n s
    exact ⟨n2, _, h⟩
  · intro sc s
    obtain ⟨ns, h, _⟩ := Node.drawList_eq sc.mRootNodes s
    exact ⟨ns, _, h⟩
  · intro c cs s
    obtain ⟨c2, hc, _⟩ := Node.draw_eq c s
    obtain ⟨cs2, hcs, _⟩ := Node.drawList_eq cs s
    exact ⟨c2, cs2, _, _, hc, hcs, by simp [Node.drawList, hc, hcs]⟩

/-- C5: the events of Node::draw are exactly, in order: the upload of the
composite transform (inherited seed times the node's own matrix), then the
node's own meshes in list order, then the children in list order, each child
recursively producing its meshes before its own children; the unfolding
equations of the specified trace spell that order out. -/
theorem draw_event_order :
    (∀ (n : Node) (s : MatrixStack),
      ∃ n2, Node.draw n s = some (n2, s, Node.specTrace n s.mCurrentMatrix))
    ∧ (∀ nm ch ms ph q t m d (seed : Mat4),
        Node.specTrace (.mk nm ch ms ph q t m d) seed
          = Event.uploadMatrix (seed * (Node.getMatrix (.mk nm ch ms ph q t m d)).1)
            :: ms.map Event.drawMesh
            ++ Node.specTraceList ch (seed * (Node.getMatrix (.mk nm ch ms ph q t m d)).1))
    ∧ (∀ (seed : Mat4), Node.specTraceList [] seed = [])
    ∧ (∀ (c : Node) (cs : List Node) (seed : Mat4),
        Node.specTraceList (c :: cs) seed
          = Node.specTrace c seed ++ Node.specTraceList cs seed) := by
  refine ⟨?_, ?_, ?_, ?_⟩
  · intro n s
    obtain ⟨n2, h, _⟩ := Node.draw_eq n s
    exact ⟨n2, h⟩
  · intro nm ch ms ph q t m d seed
    simp [Node.specTrace]
  · intro seed
    simp [Node.specTraceList]
  · intro c cs seed
    simp [Node.specTraceList]

/-- C10: drawing a node leaves its name, orientation, translation, mesh list,
physic state and dirty flag unchanged, only the mutable cached matrix may
differ, and the children are pairwise related the same way, recursively. -/
theorem draw_writes_only_cache :
    ∀ (n : Node) (s : MatrixStack),
      ∃ n2 ev, Node.draw n s = some (n2, s, ev)
        ∧ n2.mName = n.mName
        ∧ n2.mMeshesList = n.mMeshesList
        ∧ n2.mPhysic = n.mPhysic
        ∧ n2.mOrientationQuaternion = n.mOrientationQuaternion
        ∧ n2.mTranslationVector = n.mTranslationVector
        ∧ n2.mbMatrixDirty = n.mbMatrixDirty
        ∧ Node.CacheWriteOnlyList n.mChildrenList n2.mChildrenList
        ∧ Node.CacheWriteOnly n n2 := by
  intro n s
  obtain ⟨n2, h, hrel⟩ := Node.draw_eq n s
  refine ⟨n2, _, h, ?_⟩
  cases hrel with
  | mk nm ch ch2 ms ph q t m m2 d hch =>
    exact ⟨rfl, rfl, rfl, rfl, rfl, rfl, hch, Node.CacheWriteOnly.mk nm ch ch2 ms ph q t m m2 d hch⟩


/-- Unfolding of the vector sum into components. -/
theorem Vec3.add_def (a b : Vec3) : a + b = ⟨a.x + b.x, a.y + b.y, a.z + b.z⟩ := rfl

/-- Rotating a vector by the identity quaternion leaves it unchanged. -/
theorem Quat.rotateVec_one (v : Vec3) : Quat.one.rotateVec v = v := by
  simp [Quat.rotateVec, Quat.one, Vec3.cross, Vec3.scale, Vec3.add_def]

/-- move(vec3) adds the orientation-rotated delta to the translation and does
not change the orientation. -/
theorem Node.move_fields (n : Node) (v : Vec3) :
    (n.move v).mTranslationVector
      = n.mTranslationVector + (n.mOrientationQuaternion.mat3Cast).mulVec v
    ∧ (n.move v).mOrientationQuaternion = n.mOrientationQuaternion := by
  obtain ⟨nm, ch, ms, ph, q, t, m, d⟩ := n
  exact ⟨rfl, rfl⟩

/-- yaw(pi/2) on a fresh node produces the quaternion of a quarter turn about
the world Y axis. -/
theorem Node.yaw_new_quat (apName : String) :
    ((Node.new apName).yaw (Real.pi / 2)).mOrientationQuaternion
      = ⟨Real.sqrt 2 / 2, 0, Real.sqrt 2 / 2, 0⟩ := by
  have hangle : Real.pi / 2 * (1 / 2) = Real.pi / 4 := by ring
  have hangle2 : Real.pi / 2 * 2⁻¹ = Real.pi / 4 := by ring
  have hc : Real.cos (Real.pi / 2 * (1 / 2)) = Real.sqrt 2 / 2 := by
    rw [hangle]; exact Real.cos_pi_div_four
  have hs : Real.sin (Real.pi / 2 * (1 / 2)) = Real.sqrt 2 / 2 := by
    rw [hangle]; exact Real.sin_pi_div_four
  have hc2 : Real.cos (Real.pi / 2 * 2⁻¹) = Real.sqrt 2 / 2 := by
    rw [hangle2]; exact Real.cos_pi_div_four
  have hs2 : Real.sin (Real.pi / 2 * 2⁻¹) = Real.sqrt 2 / 2 := by
    rw [hangle2]; exact Real.sin_pi_div_four
  have h2 : Real.sqrt 2 * Real.sqrt 2 = 2 := Real.mul_self_sqrt (by norm_num)
  show (Node.yaw (Node.mk apName [] [] Physic.new Quat.one Vec3.zero Mat4.identity false)
      (Real.pi / 2)).mOrientationQuaternion = _
  simp only [Node.yaw, Node.mOrientationQuaternion_mk, Quat.rotateVec_one]
  have hoff : Quat.mul (Quat.angleAxis (Real.pi / 2) Node.UNIT_Y_UP) Quat.one
      = ⟨Real.sqrt 2 / 2, 0, Real.sqrt 2 / 2, 0⟩ := by
    simp [Quat.angleAxis, Quat.mul, Quat.one, Node.UNIT_Y_UP, hc, hs, hc2, hs2]
  rw [Node.rotateLeftMultiply, hoff]
  have hlen : Quat.length ⟨Real.sqrt 2 / 2, 0, Real.sqrt 2 / 2, 0⟩ = 1 := by
    have hsq : Quat.lengthSq ⟨Real.sqrt 2 / 2, 0, Real.sqrt 2 / 2, 0⟩ = 1 := by
      simp only [Quat.lengthSq]
      nlinarith [h2]
    rw [Quat.length, hsq, Real.sqrt_one]
  rw [Quat.normalize, hlen]
  norm_num

/-- The rotation matrix of the quarter-turn orientation sends the world front
axis to the world right axis. -/
theorem Node.yaw_rotated_front (apName : String) :
    ((((Node.new apName).yaw (Real.pi / 2)).mOrientationQuaternion).mat3Cast).mulVec
      Node.UNIT_Z_FRONT = ⟨1, 0, 0⟩ := by
  have h2 : Real.sqrt 2 * Real.sqrt 2 = 2 := Real.mul_self_sqrt (by norm_num)
  have hq : (Real.sqrt 2 / 2 : ℝ) * (Real.sqrt 2 / 2) = 1 / 2 := by nlinarith [h2]
  rw [Node.yaw_new_quat]
  simp only [Quat.mat3Cast, Mat3.mulVec, Node.UNIT_Z_FRONT]
  simp only [Vec3.mk.injEq]
  norm_num [hq]

/-- C6: move(delta) adds rotationMatrix(orientation) * delta to the
translation and leaves the orientation unchanged; in particular after
yaw(pi/2) on a fresh node, move(UNIT_Z_FRONT) moves the node by (1,0,0), the
rotated forward axis, not by the world Z axis (0,0,1). -/
theorem move_is_orientation_relative :
    (∀ (n : Node) (v : Vec3),
        (n.move v).mTranslationVector
          = n.mTranslationVector + (n.mOrientationQuaternion.mat3Cast).mulVec v
        ∧ (n.move v).mOrientationQuaternion = n.mOrientationQuaternion)
    ∧ (∀ apName : String,
        ((Node.new apName).yaw (Real.pi / 2)).mOrientationQuaternion
          = ⟨Real.sqrt 2 / 2, 0, Real.sqrt 2 / 2, 0⟩
        ∧ ((((Node.new apName).yaw (Real.pi / 2)).mOrientationQuaternion).mat3Cast).mulVec
            Node.UNIT_Z_FRONT = ⟨1, 0, 0⟩
        ∧ (((Node.new apName).yaw (Real.pi / 2)).move Node.UNIT_Z_FRONT).mTranslationVector
          = ⟨1, 0, 0⟩
        ∧ Node.UNIT_Z_FRONT = ⟨0, 0, 1⟩) := by
  refine ⟨Node.move_fields, ?_⟩
  intro apName
  refine ⟨Node.yaw_new_quat apName, Node.yaw_rotated_front apName, ?_, rfl⟩
  rw [(Node.move_fields _ _).1, Node.yaw_rotated_front]
  show Vec3.zero + _ = _
  simp [Vec3.zero, Vec3.add_def]

/-- In the in-motion case, the time-stepped move advances the translation by
the scaled linear speed, composes the orientation offsets, and sets the dirty
flag. -/
theorem Node.moveDt_inMotion (n : Node) (dt : ℝ) (h : n.mPhysic.isInMotion) :
    (n.moveDt dt).mTranslationVector
      = n.mTranslationVector + Vec3.scale dt n.mPhysic.mLinearSpeed
    ∧ (n.moveDt dt).mOrientationQuaternion
      = Node.integrateOrientation n.mOrientationQuaternion n.mPhysic.mRotationalSpeed dt
    ∧ (n.moveDt dt).mbMatrixDirty = true := by
  obtain ⟨nm, ch, ms, ph, q, t, m, d⟩ := n
  simp only [Node.mPhysic_mk] at h
  simp only [Node.moveDt]
  rw [if_pos h]
  exact ⟨rfl, rfl, rfl⟩

/-- In every case, the time-stepped move recurses into the children and leaves
name, meshes and physic state unchanged. -/
theorem Node.moveDt_always (n : Node) (dt : ℝ) :
    (n.moveDt dt).mChildrenList = Node.moveDtList n.mChildrenList dt
    ∧ (n.moveDt dt).mPhysic = n.mPhysic
    ∧ (n.moveDt dt).mName = n.mName
    ∧ (n.moveDt dt).mMeshesList = n.mMeshesList := by
  obtain ⟨nm, ch, ms, ph, q, t, m, d⟩ := n
  simp only [Node.moveDt]
  by_cases h : ph.isInMotion
  · rw [if_pos h]; exact ⟨rfl, rfl, rfl, rfl⟩
  · rw [if_neg h]; exact ⟨rfl, rfl, rfl, rfl⟩

/-- Two half-second integrations of a node with linear speed (1,0,0) raise
translation.x by one in total. -/
theorem Node.moveDt_two_halves (apName : String) :
    ((((Node.new apName).setLinearSpeed ⟨1, 0, 0⟩).moveDt (1 / 2)).moveDt
        (1 / 2)).mTranslationVector.x
      = (Node.new apName).mTranslationVector.x + 1 := by
  have hmot : ((Node.new apName).setLinearSpeed ⟨1, 0, 0⟩).mPhysic.isInMotion :=
    Or.inl (by norm_num)
  have hph := (Node.moveDt_always ((Node.new apName).setLinearSpeed ⟨1, 0, 0⟩) (1 / 2)).2.1
  have hmot2 : (((Node.new apName).setLinearSpeed ⟨1, 0, 0⟩).moveDt (1 / 2)).mPhysic.isInMotion := by
    rw [hph]; exact hmot
  have h1 := (Node.moveDt_inMotion ((Node.new apName).setLinearSpeed ⟨1, 0, 0⟩) (1 / 2) hmot).1
  have h2 := (Node.moveDt_inMotion (((Node.new apName).setLinearSpeed ⟨1, 0, 0⟩).moveDt (1 / 2))
    (1 / 2) hmot2).1
  rw [h2, hph, h1]
  show ((Vec3.zero + Vec3.scale (1 / 2) ⟨1, 0, 0⟩) + Vec3.scale (1 / 2) ⟨1, 0, 0⟩).x
    = Vec3.zero.x + 1
  simp [Vec3.zero, Vec3.scale, Vec3.add_def]
  norm_num

/-- C7 (spec-modelled, Node::move(float) having no definition in the sources):
for a node in motion, the time-stepped move advances the translation by
linearSpeed * dt (the speed itself, not rotated into the orientation),
advances the orientation by the composed pitch/yaw/roll offsets of the
rotational speed components times dt, and marks the cached matrix dirty; in
every case it recurses into all children in list order, as does Scene::move
over the root nodes; and two integrations with linear speed (1,0,0) and
dt = 0.5 raise translation.x by 1.0 in total. -/
theorem moveDt_integrates_motion :
    (∀ (n : Node) (dt : ℝ), n.mPhysic.isInMotion →
        (n.moveDt dt).mTranslationVector
          = n.mTranslationVector + Vec3.scale dt n.mPhysic.mLinearSpeed
        ∧ (n.moveDt dt).mOrientationQuaternion
          = Node.integrateOrientation n.mOrientationQuaternion n.mPhysic.mRotationalSpeed dt
        ∧ (n.moveDt dt).mbMatrixDirty = true)
    ∧ (∀ (n : Node) (dt : ℝ), (n.moveDt dt).mChildrenList = Node.moveDtList n.mChildrenList dt)
    ∧ (∀ (dt : ℝ), Node.moveDtList [] dt = [])
    ∧ (∀ (c : Node) (cs : List Node) (dt : ℝ),
        Node.moveDtList (c :: cs) dt = c.moveDt dt :: Node.moveDtList cs dt)
    ∧ (∀ (sc : Scene) (dt : ℝ), (sc.move dt).mRootNodes = Node.moveDtList sc.mRootNodes dt)
    ∧ (∀ apName : String,
        ((((Node.new apName).setLinearSpeed ⟨1, 0, 0⟩).moveDt (1 / 2)).moveDt
            (1 / 2)).mTranslationVector.x
          = (Node.new apName).mTranslationVector.x + 1) := by
  refine ⟨Node.moveDt_inMotion, ?_, ?_, ?_, ?_, Node.moveDt_two_halves⟩
  · intro n dt; exact (Node.moveDt_always n dt).1
  · intro dt; simp [Node.moveDtList]
  · intro c cs dt; simp [Node.moveDtList]
  · intro sc dt; rfl

/-- Witness for C7: the theorem applied to the concrete in-motion node with
linear speed (1,0,0) and dt = 0.5, the motion hypothesis discharged there. -/
theorem moveDt_integrates_motion_witness :
    (((Node.new (default : String)).setLinearSpeed ⟨1, 0, 0⟩).moveDt (1 / 2)).mbMatrixDirty
      = true :=
  (moveDt_integrates_motion.1 ((Node.new (default : String)).setLinearSpeed ⟨1, 0, 0⟩) (1 / 2)
    (Or.inl (by norm_num))).2.2

end
